import Mathlib

/-!
Shallow embedding of the durin token/throttling core
(src/durin/models.py and src/durin/throttling.py).

Conventions of the embedding:
* timestamps and durations (`timezone.now()`, `Client.token_ttl`, `timedelta`)
  are integers (a fixed clock unit); `timezone.now()` is passed explicitly as a
  `now` argument to each operation that reads the clock;
* Python strings are `String` at the API boundary and `List Char` inside the
  parsing code; `None`-able strings are `Option String`;
* `os.urandom` is passed explicitly as a byte source; bytes are `Nat`s < 256;
* Django model rows are structures; the database is an explicit `DB` state and
  ORM-level save/delete/cascade behaviour is explicit state passing.
-/

namespace Durin

/-- Model of `ClientSettings` (models.py lines 64-108): holds the per-client throttle
rate override.  The `throttle_rate` field is `null=True, blank=True`, hence
`Option String` (and the empty string is storable). -/
structure ClientSettings where
  throttle_rate : Option String
  deriving DecidableEq, Repr

/-- Model of `Client` (models.py lines 25-61): a registered API client with a unique
name, a token TTL, and optional settings (reverse of the `OneToOneField` on
`ClientSettings`, so `Option`).  `pk` is Django's implicit primary key. -/
structure Client where
  pk : Nat
  name : String
  token_ttl : Int
  settings : Option ClientSettings
  deriving DecidableEq, Repr

/-- Embedding of `Client.throttle_rate` (models.py lines 52-57): returns
`self.settings.throttle_rate` when the reverse one-to-one `settings` exists
(`hasattr(self, "settings")`), else `None`. -/
def Client.throttle_rate (c : Client) : Option String :=
  match c.settings with
  | some s => s.throttle_rate
  | none => none

/-- Model of `UserClient` (models.py lines 111-141): one `User` <-> `Client` pair.
The user side is kept as its primary key (`AUTH_USER_MODEL` is external). -/
structure UserClient where
  pk : Nat
  user_pk : Nat
  client : Client
  deriving DecidableEq, Repr

/-- The authentication context `request._auth` placed on the request by the
upstream authentication backend.  Modelled from the spec: the request context
provider "supplies the authenticated principal identity and, when relevant,
the resolved AuthToken/Client for the current request" (the authentication
middleware itself is not part of src/); `throttling.py` reads
`request._auth.client` from it. -/
structure AuthContext where
  client : Client
  deriving DecidableEq, Repr

/-- The parts of a DRF `Request` read by `throttling.py`:
`request.user.is_authenticated`, `request.user.pk`, the optional `_auth`
attribute (`hasattr(request, "_auth")` is `auth.isSome`), and the
network-derived identity that DRF's inherited `get_ident(request)` would
return for anonymous callers (an external collaborator). -/
structure Request where
  user_is_authenticated : Bool
  user_pk : Nat
  auth : Option AuthContext
  network_ident : String
  deriving DecidableEq, Repr

namespace UserClientRateThrottle

/-- Embedding of `UserClientRateThrottle.scope` (throttling.py line 45). -/
def scope : String := "user_per_client"

/-- Embedding of `UserClientRateThrottle.cache_format` (throttling.py line 42):
`"throttle_%(scope)s_%(ident)s"` interpolated with scope and ident. -/
def cache_format (s ident : String) : String :=
  "throttle_" ++ s ++ "_" ++ ident

/-- Python truthiness of an optional string: `None` and `""` are falsy,
every other string is truthy. -/
def pyTruthy : Option String → Bool
  | none => false
  | some s => !(s == "")

/-- The rate resolution performed by `UserClientRateThrottle.allow_request`
(throttling.py lines 50-63): when `request.user.is_authenticated and
hasattr(request, "_auth")`, take `rate = request._auth.client.throttle_rate`
and set `self.rate = rate if rate else self.get_rate()`; otherwise
`self.rate = self.get_rate()`.  DRF's `get_rate()` looks up the configured
default rate for this throttle's scope (`"user_per_client"`); it is passed
here as `default_rate`.  The subsequent `parse_rate` and the inherited
window accounting of `super().allow_request` are DRF library code, outside
this repository. -/
def allow_request_rate (req : Request) (default_rate : String) : String :=
  if req.user_is_authenticated && req.auth.isSome then
    let rate : Option String :=
      match req.auth with
      | some a => a.client.throttle_rate
      | none => none
    if pyTruthy rate then rate.getD default_rate else default_rate
  else
    default_rate

/-- Embedding of `UserClientRateThrottle.get_user_client_ident` (throttling.py lines
77-85): `"user-{0}.client-{1}".format(request.user.pk, request._auth.client.pk)`.
The `_auth` context is passed explicitly (the Python code assumes the
attribute is set, see `get_cache_key`). -/
def get_user_client_ident (req : Request) (a : AuthContext) : String :=
  "user-" ++ toString req.user_pk ++ ".client-" ++ toString a.client.pk

/-- Embedding of `UserClientRateThrottle.get_cache_key` (throttling.py lines 65-75):
resolves the ident (user-client pair if authenticated with `_auth`, else the
user's pk, else the network ident) and interpolates `cache_format`. -/
def get_cache_key (req : Request) : String :=
  let ident : String :=
    if req.user_is_authenticated then
      match req.auth with
      | some a => get_user_client_ident req a
      | none => toString req.user_pk
    else
      req.network_ident
  cache_format scope ident

/-- Python `str.split(sep)` for a one-character separator: splits at every
occurrence, keeping empty pieces, so the result always has one more piece
than there are separators. -/
def splitOnChar (sep : Char) : List Char → List (List Char)
  | [] => [[]]
  | c :: cs =>
    if c = sep then
      [] :: splitOnChar sep cs
    else
      match splitOnChar sep cs with
      | t :: ts => (c :: t) :: ts
      | [] => [[c]]

/-- ASCII decimal digit test. -/
def isAsciiDigit (c : Char) : Bool :=
  ('0' ≤ c) && (c ≤ '9')

/-- Numeric value of a list of decimal digits, most significant first. -/
def digitsToNat (l : List Char) : Nat :=
  l.foldl (fun a c => a * 10 + (c.toNat - '0'.toNat)) 0

/-- A nonempty all-digit string parses; anything else does not. -/
def parseDigits (l : List Char) : Option Nat :=
  if !l.isEmpty && l.all isAsciiDigit then some (digitsToNat l) else none

/-- Strip leading and trailing whitespace, as Python `int()` does to its
string argument. -/
def pyStrip (l : List Char) : List Char :=
  ((l.dropWhile Char.isWhitespace).reverse.dropWhile Char.isWhitespace).reverse

/-- Model of Python `int(s)`: strip surrounding whitespace, then an optional
sign followed by one or more ASCII digits.  (Python additionally accepts
underscore digit grouping and non-ASCII digits; those corners are immaterial
to the throttle-rate claims.)  `none` models `ValueError`. -/
def pyInt (l : List Char) : Option Int :=
  match pyStrip l with
  | '+' :: ds => (parseDigits ds).map (fun n => (n : Int))
  | '-' :: ds => (parseDigits ds).map (fun n => -(n : Int))
  | ds => (parseDigits ds).map (fun n => (n : Int))

/-- Embedding of `TIME_PERIODS_MAP` (throttling.py line 94): `{"s": 1, "m": 60, "h": 3600,
"d": 86400}`; lookup of any other key is a `KeyError` (`none`). -/
def TIME_PERIODS_MAP : List Char → Option Nat
  | ['s'] => some 1
  | ['m'] => some 60
  | ['h'] => some 3600
  | ['d'] => some 86400
  | _ => none

/-- Embedding of `UserClientRateThrottle.validate_client_throttle_rate` (throttling.py
lines 87-105).  `None` passes.  Otherwise `num, period = rate.split("/")`
(a `ValueError` unless exactly two pieces), `int(num)` (`ValueError` on an
unparseable integer), `TIME_PERIODS_MAP[period]` (`KeyError` on an unknown
period).  Every exception is re-raised as a `DjValidationError`, modelled by
`Except.error`. -/
def validate_client_throttle_rate (rate : Option String) : Except String Unit :=
  match rate with
  | none => Except.ok ()
  | some r =>
    match splitOnChar '/' r.toList with
    | [num, period] =>
      match pyInt num with
      | some _ =>
        match TIME_PERIODS_MAP period with
        | some _ => Except.ok ()
        | none => Except.error ("invalid period " ++ period.asString)
      | none => Except.error "invalid literal for int"
    | _ => Except.error "values to unpack"

end UserClientRateThrottle

/-- One hex digit of `binascii.hexlify`: lowercase. -/
def hexDigitChar (n : Nat) : Char :=
  if n < 10 then Char.ofNat (48 + n) else Char.ofNat (97 + (n - 10))

/-- Encoding of one byte by `binascii.hexlify`: two lowercase hex digits. -/
def hexlifyByte (b : Nat) : List Char :=
  [hexDigitChar (b / 16), hexDigitChar (b % 16)]

/-- Model of `binascii.hexlify(bytes).decode()`: each byte becomes two lowercase hex
characters, in order. -/
def hexlify (bs : List Nat) : List Char :=
  (bs.map hexlifyByte).flatten

/-- Embedding of `_create_token_string` (models.py lines 19-22):
`binascii.hexlify(urandom(int(TOKEN_CHARACTER_LENGTH / 2))).decode()`.
The entropy source `os.urandom` is passed explicitly: `urandom n` is the
byte string it returns for a request of `n` bytes.  Python's
`int(L / 2)` truncates the true division, which is `L / 2` in `Nat`. -/
def _create_token_string (TOKEN_CHARACTER_LENGTH : Nat) (urandom : Nat → List Nat) : String :=
  (hexlify (urandom (TOKEN_CHARACTER_LENGTH / 2))).asString

/-- Model of `AuthToken` (models.py lines 161-230) as an ORM instance: the token
string, the `auto_now_add` creation timestamp, the expiry, and the
`OneToOneField` to `UserClient`, which is `null=True` hence `Option`. -/
structure AuthToken where
  token : String
  created : Int
  expiry : Int
  userclient : Option UserClient
  deriving DecidableEq, Repr

/-- Embedding of `AuthTokenManager.create` (models.py lines 144-158): `expiry = now +
delta_ttl` when a `delta_ttl` is given, else `now + userclient.client
.token_ttl`; the new instance binds the generated token string and the
`userclient`.  `created` is set to `now` by `auto_now_add` at insert time;
`tokenStr` stands for the `_create_token_string()` call. -/
def AuthTokenManager.create (now : Int) (tokenStr : String) (userclient : UserClient)
    (delta_ttl : Option Int) : AuthToken :=
  let expiry : Int :=
    match delta_ttl with
    | some d => now + d
    | none => now + userclient.client.token_ttl
  { token := tokenStr, created := now, expiry := expiry, userclient := some userclient }

/-- The `token_renewed` signal payload (models.py lines 200-204):
`sender=renewed_by, token=self, new_expiry=new_expiry`.  `token` is the
instance *after* the expiry update, as in the Python code. -/
structure TokenRenewedEvent where
  sender : String
  token : AuthToken
  new_expiry : Int
  deriving DecidableEq, Repr

/-- Embedding of `AuthToken.renew_token` (models.py lines 191-205): `new_expiry = now +
self.userclient.client.token_ttl`; updates `expiry` (and only `expiry`:
`save(update_fields=("expiry",))`), sends exactly one `token_renewed`
signal, and returns `new_expiry`.  When `userclient` is NULL the attribute
chain raises (`none` here). -/
def AuthToken.renew_token (now : Int) (tok : AuthToken) (renewed_by : String) :
    Option (AuthToken × TokenRenewedEvent × Int) :=
  match tok.userclient with
  | none => none
  | some uc =>
    let new_expiry := now + uc.client.token_ttl
    let tok' : AuthToken := { tok with expiry := new_expiry }
    some (tok', { sender := renewed_by, token := tok', new_expiry := new_expiry }, new_expiry)

/-- Embedding of `AuthToken.has_expired` (models.py lines 221-227):
`timezone.now() > self.expiry`. -/
def AuthToken.has_expired (now : Int) (tok : AuthToken) : Bool :=
  now > tok.expiry

/-! The database layer: rows, uniqueness constraints and cascade deletes
that the ORM enforces around the model code. -/

/-- A persisted `AuthToken` row: the `userclient` one-to-one is stored as a
nullable unique foreign key to `UserClient.pk`. -/
structure TokenRow where
  token : String
  created : Int
  expiry : Int
  userclient : Option Nat
  deriving DecidableEq, Repr

/-- The persisted state: the `UserClient` table and the `AuthToken` table.
(`Client` rows ride along inside each `UserClient` since no claim needs
client rows shared between links.) -/
structure DB where
  userclients : List UserClient
  tokens : List TokenRow
  deriving DecidableEq, Repr

/-- Errors surfaced by the storage layer: `ConflictError` (second token for
a link, from the unique one-to-one), `DuplicateTokenError` (token string
collision, from the unique index), `NotFoundError`. -/
inductive DBError
  | conflict
  | duplicateToken
  | notFound
  deriving DecidableEq, Repr

/-- Foreign-key lookup of a `UserClient` row by primary key. -/
def DB.findUserClient (db : DB) (pk : Nat) : Option UserClient :=
  db.userclients.find? (fun uc => uc.pk == pk)

/-- Database well-formedness, as enforced by the schema (models.py lines
169-176 and 182-189): token strings are unique, the non-NULL `userclient`
keys are unique (a link owns at most one token; the one-to-one field is
`null=True`, and NULLs do not collide), and every non-NULL `userclient`
key references an existing `UserClient` row. -/
def DB.WF (db : DB) : Prop :=
  db.tokens.Pairwise (fun a b => a.token ≠ b.token) ∧
  db.tokens.Pairwise (fun a b => a.userclient = none ∨ a.userclient ≠ b.userclient) ∧
  ∀ r ∈ db.tokens, r.userclient = none ∨ ∃ uc ∈ db.userclients, r.userclient = some uc.pk

instance (db : DB) : Decidable db.WF := by
  unfold DB.WF
  infer_instance

/-- Operation `issue`: `AuthTokenManager.create` persisted at the database layer.  The
unique one-to-one on `userclient` rejects a second token for the same link
(`ConflictError`), the unique index on `token` rejects a colliding token
string (`DuplicateTokenError`); otherwise the row built by
`AuthTokenManager.create` is inserted. -/
def DB.issue (db : DB) (now : Int) (tokenStr : String) (uc_pk : Nat)
    (delta_ttl : Option Int) : Except DBError DB :=
  match db.findUserClient uc_pk with
  | none => Except.error DBError.notFound
  | some uc =>
    if db.tokens.any (fun r => r.userclient == some uc_pk) then
      Except.error DBError.conflict
    else if db.tokens.any (fun r => r.token == tokenStr) then
      Except.error DBError.duplicateToken
    else
      let tok := AuthTokenManager.create now tokenStr uc (delta_ttl)
      Except.ok { db with
        tokens := db.tokens ++ [⟨tok.token, tok.created, tok.expiry, some uc_pk⟩] }

/-- Operation `renew` at the database layer: fetch the row by token string, load its
`UserClient` through the foreign key, run `AuthToken.renew_token` on the
instance, and persist the expiry update (`save(update_fields=("expiry",))`
touches only that column of that row). -/
def DB.renew (db : DB) (now : Int) (tokenStr : String) (renewed_by : String) :
    Except DBError (DB × TokenRenewedEvent × Int) :=
  match db.tokens.find? (fun r => r.token == tokenStr) with
  | none => Except.error DBError.notFound
  | some row =>
    match row.userclient with
    | none => Except.error DBError.notFound
    | some pk =>
      match db.findUserClient pk with
      | none => Except.error DBError.notFound
      | some uc =>
        match AuthToken.renew_token now ⟨row.token, row.created, row.expiry, some uc⟩ renewed_by with
        | none => Except.error DBError.notFound
        | some (tok', ev, new_expiry) =>
          Except.ok
            ({ db with tokens := db.tokens.map (fun r =>
                if r.token == tokenStr then { r with expiry := tok'.expiry } else r) },
             ev, new_expiry)

/-- Operation `revoke`: delete the `AuthToken` row (a no-op when absent). -/
def DB.revoke (db : DB) (tokenStr : String) : DB :=
  { db with tokens := db.tokens.filter (fun r => !(r.token == tokenStr)) }

/-- Deleting a `UserClient` row: `on_delete=models.CASCADE` on
`AuthToken.userclient` (models.py line 188) also deletes the token row(s)
referencing it. -/
def DB.deleteUserClient (db : DB) (uc_pk : Nat) : DB :=
  { db with
    userclients := db.userclients.filter (fun uc => !(uc.pk == uc_pk)),
    tokens := db.tokens.filter (fun r => !(r.userclient == some uc_pk)) }

/-- A lowercase hexadecimal digit: `0`-`9` or `a`-`f`. -/
def isLowerHexDigit (c : Char) : Bool :=
  (('0' ≤ c) && (c ≤ '9')) || (('a' ≤ c) && (c ≤ 'f'))

/-! Theorems. -/

open UserClientRateThrottle

/-- A nibble under `hexDigitChar` is a lowercase hexadecimal digit. -/
theorem hexDigitChar_isLowerHex : ∀ n < 16, isLowerHexDigit (hexDigitChar n) = true := by
  decide

/-- The encoding `hexlify` yields two characters per byte. -/
theorem hexlify_length (bs : List Nat) : (hexlify bs).length = 2 * bs.length := by
  induction bs with
  | nil => rfl
  | cons b t ih =>
    simp only [hexlify, List.map_cons, List.flatten_cons, List.length_append,
      List.length_cons] at ih ⊢
    simp only [hexlifyByte, List.length_cons, List.length_nil]
    omega

/-- Every character `hexlify` produces from genuine bytes is lowercase hex. -/
theorem hexlify_chars (bs : List Nat) (h : ∀ b ∈ bs, b < 256) :
    ∀ c ∈ hexlify bs, isLowerHexDigit c = true := by
  induction bs with
  | nil => simp [hexlify]
  | cons b t ih =>
    intro c hc
    simp only [hexlify, List.map_cons, List.flatten_cons, List.mem_append] at hc
    rcases hc with hc | hc
    · have hb : b < 256 := h b (by simp)
      simp only [hexlifyByte, List.mem_cons, List.not_mem_nil, or_false] at hc
      rcases hc with rfl | rfl
      · exact hexDigitChar_isLowerHex (b / 16) (by omega)
      · exact hexDigitChar_isLowerHex (b % 16) (by omega)
    · exact ih (fun x hx => h x (by simp [hx])) c hc

/-- C2: `AuthTokenManager.create` sets `expiry = now + delta_ttl` when an
override is given and `expiry = now + userclient.client.token_ttl`
otherwise, and `created` is the same `now` (`auto_now_add`), so
`expiry - created` equals the chosen TTL exactly; the new token is bound to
the given link. -/
theorem create_expiry_is_chosen_ttl (now : Int) (tokenStr : String)
    (uc : UserClient) (d : Int) :
    (AuthTokenManager.create now tokenStr uc (some d)).expiry = now + d ∧
    (AuthTokenManager.create now tokenStr uc none).expiry = now + uc.client.token_ttl ∧
    (AuthTokenManager.create now tokenStr uc (some d)).expiry -
      (AuthTokenManager.create now tokenStr uc (some d)).created = d ∧
    (AuthTokenManager.create now tokenStr uc none).expiry -
      (AuthTokenManager.create now tokenStr uc none).created = uc.client.token_ttl ∧
    (AuthTokenManager.create now tokenStr uc (some d)).userclient = some uc ∧
    (AuthTokenManager.create now tokenStr uc none).userclient = some uc := by
  refine ⟨rfl, rfl, ?_, ?_, rfl, rfl⟩ <;> simp [AuthTokenManager.create]

/-- C9: `has_expired` is true exactly when the current clock value is
strictly greater than the token's expiry.  It is a pure function of the
token's stored expiry and the clock passed in: it has no effect on the
token, is false at the expiry instant and true one tick later (so it is
decided afresh from the clock at every call), and agrees on any two tokens
with the same expiry. -/
theorem has_expired_iff_now_gt_expiry (now : Int) (tok : AuthToken) :
    (AuthToken.has_expired now tok = true ↔ tok.expiry < now) ∧
    AuthToken.has_expired tok.expiry tok = false ∧
    AuthToken.has_expired (tok.expiry + 1) tok = true ∧
    ∀ tok' : AuthToken, tok'.expiry = tok.expiry →
      AuthToken.has_expired now tok' = AuthToken.has_expired now tok := by
  refine ⟨?_, ?_, ?_, ?_⟩
  · simp [AuthToken.has_expired]
  · simp [AuthToken.has_expired]
  · simp [AuthToken.has_expired]
  · intro tok' h
    simp [AuthToken.has_expired, h]

/-- C9 witness: two tokens that differ everywhere except in `expiry` are
judged identically by `has_expired`. -/
theorem has_expired_iff_now_gt_expiry_witness :
    AuthToken.has_expired 7 ⟨"u", 1, 5, none⟩ = AuthToken.has_expired 7 ⟨"t", 0, 5, none⟩ :=
  (has_expired_iff_now_gt_expiry 7 ⟨"t", 0, 5, none⟩).2.2.2 ⟨"u", 1, 5, none⟩ rfl

/-- C1 counterexample: a client whose stored `throttle_rate` is the empty
string — a non-null value, storable since the field is `blank=True` — does
not become the effective rate: `rate if rate else self.get_rate()` tests
Python truthiness rather than `is not None`, so the request is throttled at
the default rate instead. -/
theorem allow_request_rate_ignores_empty_string :
    Client.throttle_rate ⟨7, "c", 10, some ⟨some ""⟩⟩ = some "" ∧
    (some "" : Option String) ≠ none ∧
    allow_request_rate ⟨true, 3, some ⟨⟨7, "c", 10, some ⟨some ""⟩⟩⟩, "ip"⟩ "10/m" = "10/m" ∧
    "10/m" ≠ "" := by
  refine ⟨rfl, by simp, rfl, by simp⟩

/-- C1 (amended): for a request that is authenticated and carries a resolved
client context, the effective throttle rate is the client's `throttle_rate`
whenever that value is non-null and non-empty (Python truthiness), and the
configured default rate for the "user_per_client" scope when it is null or
empty; unauthenticated requests or requests without a client context always
use the default rate. -/
theorem allow_request_rate_resolution (req : Request) (default_rate : String) :
    (∀ a r, req.user_is_authenticated = true → req.auth = some a →
       a.client.throttle_rate = some r → r ≠ "" →
       allow_request_rate req default_rate = r) ∧
    (∀ a, req.user_is_authenticated = true → req.auth = some a →
       a.client.throttle_rate = none →
       allow_request_rate req default_rate = default_rate) ∧
    (∀ a, req.user_is_authenticated = true → req.auth = some a →
       a.client.throttle_rate = some "" →
       allow_request_rate req default_rate = default_rate) ∧
    (req.user_is_authenticated = false →
       allow_request_rate req default_rate = default_rate) ∧
    (req.auth = none →
       allow_request_rate req default_rate = default_rate) := by
  refine ⟨?_, ?_, ?_, ?_, ?_⟩
  · intro a r hu ha hr hne
    simp [allow_request_rate, hu, ha, hr, pyTruthy, hne]
  · intro a hu ha hr
    simp [allow_request_rate, hu, ha, hr, pyTruthy]
  · intro a hu ha hr
    simp [allow_request_rate, hu, ha, hr, pyTruthy]
  · intro hu
    simp [allow_request_rate, hu]
  · intro ha
    simp [allow_request_rate, ha]

/-- C1 (amended) witness: a client override "2/s" beats the default
"10/m"; with no settings row the default applies. -/
theorem allow_request_rate_resolution_witness :
    allow_request_rate ⟨true, 3, some ⟨⟨7, "c", 10, some ⟨some "2/s"⟩⟩⟩, "ip"⟩ "10/m" = "2/s" ∧
    allow_request_rate ⟨true, 3, some ⟨⟨7, "c", 10, none⟩⟩, "ip"⟩ "10/m" = "10/m" ∧
    allow_request_rate ⟨false, 3, none, "ip"⟩ "10/m" = "10/m" :=
  ⟨(allow_request_rate_resolution ⟨true, 3, some ⟨⟨7, "c", 10, some ⟨some "2/s"⟩⟩⟩, "ip"⟩
      "10/m").1 ⟨⟨7, "c", 10, some ⟨some "2/s"⟩⟩⟩ "2/s" rfl rfl rfl (by simp),
   (allow_request_rate_resolution ⟨true, 3, some ⟨⟨7, "c", 10, none⟩⟩, "ip"⟩ "10/m").2.1
      ⟨⟨7, "c", 10, none⟩⟩ rfl rfl rfl,
   (allow_request_rate_resolution ⟨false, 3, none, "ip"⟩ "10/m").2.2.2.1 rfl⟩

/-- C8: the rate-limit cache key is `"throttle_" ++ scope ++ "_" ++ ident`
with scope `"user_per_client"`, where the ident is, in priority order, the
`"user-<pk>.client-<pk>"` pair for an authenticated request carrying a
client context, the principal's pk for an authenticated request without
one, and the network-derived ident for an anonymous request. -/
theorem get_cache_key_resolution (req : Request) :
    (∀ a, req.user_is_authenticated = true → req.auth = some a →
       get_cache_key req =
         "throttle_user_per_client_user-" ++ toString req.user_pk ++
           ".client-" ++ toString a.client.pk) ∧
    (req.user_is_authenticated = true → req.auth = none →
       get_cache_key req = "throttle_user_per_client_" ++ toString req.user_pk) ∧
    (req.user_is_authenticated = false →
       get_cache_key req = "throttle_user_per_client_" ++ req.network_ident) := by
  refine ⟨?_, ?_, ?_⟩
  · intro a hu ha
    simp only [get_cache_key, hu, ha, if_true, get_user_client_ident, cache_format, scope]
    apply String.ext
    simp [String.data_append]
  · intro hu ha
    simp only [get_cache_key, hu, ha, if_true, cache_format, scope]
    apply String.ext
    simp [String.data_append]
  · intro hu
    simp only [get_cache_key, hu, if_false, cache_format, scope]
    apply String.ext
    simp [String.data_append]

/-- C7: for an even positive configured character length, the token string is
exactly that many characters, each a lowercase hexadecimal digit, hex-encoding
`length/2` bytes drawn from the entropy source. -/
theorem create_token_string_hex (L : Nat) (urandom : Nat → List Nat)
    (heven : L % 2 = 0) (hpos : 0 < L)
    (hlen : (urandom (L / 2)).length = L / 2)
    (hbytes : ∀ b ∈ urandom (L / 2), b < 256) :
    (_create_token_string L urandom).length = L ∧
    ∀ c ∈ (_create_token_string L urandom).toList, isLowerHexDigit c = true := by
  constructor
  · show (hexlify (urandom (L / 2))).asString.length = L
    rw [List.length_asString, hexlify_length, hlen]
    omega
  · intro c hc
    rw [show (_create_token_string L urandom).toList = hexlify (urandom (L / 2)) from
      List.toList_asString _] at hc
    exact hexlify_chars _ hbytes c hc

/-- C7 witness: length 8 with four concrete bytes gives an 8-character
lowercase-hex token. -/
theorem create_token_string_hex_witness :
    (_create_token_string 8 (fun n => List.replicate n 171)).length = 8 ∧
    ∀ c ∈ (_create_token_string 8 (fun n => List.replicate n 171)).toList,
      isLowerHexDigit c = true :=
  create_token_string_hex 8 (fun n => List.replicate n 171) (by decide) (by decide)
    (by simp) (by simp)

/-- C8 witness: the three ident cases at concrete requests. -/
theorem get_cache_key_resolution_witness :
    get_cache_key ⟨true, 3, some ⟨⟨7, "c", 10, none⟩⟩, "ip"⟩ =
      "throttle_user_per_client_user-" ++ toString 3 ++ ".client-" ++ toString 7 ∧
    get_cache_key ⟨true, 3, none, "ip"⟩ =
      "throttle_user_per_client_" ++ toString 3 ∧
    get_cache_key ⟨false, 3, none, "1.2.3.4"⟩ =
      "throttle_user_per_client_" ++ "1.2.3.4" :=
  ⟨(get_cache_key_resolution ⟨true, 3, some ⟨⟨7, "c", 10, none⟩⟩, "ip"⟩).1
      ⟨⟨7, "c", 10, none⟩⟩ rfl rfl,
   (get_cache_key_resolution ⟨true, 3, none, "ip"⟩).2.1 rfl rfl,
   (get_cache_key_resolution ⟨false, 3, none, "1.2.3.4"⟩).2.2 rfl⟩

/-- Destructured success of `DB.issue`: the link exists, no token row owned
it, the token string was fresh, and the rows are the old rows plus the row
built by `AuthTokenManager.create`. -/
theorem issue_ok_destruct (db : DB) (now : Int) (ts : String) (pk : Nat)
    (d : Option Int) (db' : DB) (h : db.issue now ts pk d = Except.ok db') :
    ∃ uc, db.findUserClient pk = some uc ∧
      (∀ r ∈ db.tokens, r.userclient ≠ some pk) ∧
      (∀ r ∈ db.tokens, r.token ≠ ts) ∧
      db'.userclients = db.userclients ∧
      db'.tokens = db.tokens ++
        [⟨ts, now, (AuthTokenManager.create now ts uc d).expiry, some pk⟩] := by
  unfold DB.issue at h
  split at h
  · exact absurd h (by simp)
  next uc hf =>
    split at h
    next h1 => exact absurd h (by simp)
    next h1 =>
      split at h
      next h2 => exact absurd h (by simp)
      next h2 =>
        injection h with h
        subst h
        refine ⟨uc, hf, ?_, ?_, rfl, rfl⟩
        · intro r hr he
          exact h1 (List.any_eq_true.2 ⟨r, hr, by simp [he]⟩)
        · intro r hr he
          exact h2 (List.any_eq_true.2 ⟨r, hr, by simp [he]⟩)

/-- The row update performed by a persisted renewal changes no field other
than `expiry`. -/
theorem renewRow_fields (ts : String) (e : Int) (r : TokenRow) :
    ((if r.token == ts then { r with expiry := e } else r) : TokenRow).token = r.token ∧
    ((if r.token == ts then { r with expiry := e } else r) : TokenRow).created = r.created ∧
    ((if r.token == ts then { r with expiry := e } else r) : TokenRow).userclient
      = r.userclient := by
  split <;> exact ⟨rfl, rfl, rfl⟩

/-- Destructured success of `DB.renew`: the row was found by token string,
its link and client were resolved, and the new state maps only that row's
`expiry` to `now` plus the client's TTL. -/
theorem renew_ok_destruct (db : DB) (now : Int) (ts rb : String) (db' : DB)
    (ev : TokenRenewedEvent) (ne : Int)
    (h : db.renew now ts rb = Except.ok (db', ev, ne)) :
    ∃ row pk uc, db.tokens.find? (fun r => r.token == ts) = some row ∧
      row.userclient = some pk ∧
      db.findUserClient pk = some uc ∧
      ne = now + uc.client.token_ttl ∧
      ev.new_expiry = ne ∧
      db'.userclients = db.userclients ∧
      db'.tokens = db.tokens.map (fun r =>
        if r.token == ts then { r with expiry := now + uc.client.token_ttl } else r) := by
  unfold DB.renew at h
  split at h
  · exact absurd h (by simp)
  next row hfind =>
    split at h
    · exact absurd h (by simp)
    next pk hrow =>
      split at h
      · exact absurd h (by simp)
      next uc hf =>
        split at h
        next hr => exact absurd h (by simp)
        next tok' ev' ne' hr =>
          simp only [AuthToken.renew_token, Option.some.injEq, Prod.mk.injEq] at hr
          obtain ⟨htok', hev', hne'⟩ := hr
          injection h with h
          have h1 : db' = { db with tokens := db.tokens.map (fun r =>
              if r.token == ts then { r with expiry := tok'.expiry } else r) } :=
            congrArg Prod.fst h.symm
          have h2 : ev = ev' := congrArg (fun x => x.2.1) h.symm
          have h3 : ne = ne' := congrArg (fun x => x.2.2) h.symm
          refine ⟨row, pk, uc, hfind, hrow, hf, ?_, ?_, ?_, ?_⟩
          · rw [h3, ← hne']
          · rw [h2, ← hev', h3, ← hne']
          · rw [h1]
          · rw [h1, ← htok']

/-- C3: a successful renewal sets the token's expiry to `now` plus the
client's TTL, persists only the expiry field (token string, creation time
and link unchanged), returns the new expiry, and sends exactly one
`token_renewed` event carrying the renewed token, the new expiry and the
actor (the single event value in the result models the single
`token_renewed.send`).  At the database layer, renewal is the only
operation that mutates `expiry`: `issue` leaves every pre-existing row
intact, `revoke` and link deletion only remove whole rows, and a renewed
state differs from the old one only in the `expiry` column. -/
theorem renew_token_spec :
    (∀ (now : Int) (tok : AuthToken) (uc : UserClient) (rb : String),
      tok.userclient = some uc →
      AuthToken.renew_token now tok rb =
        some ({ tok with expiry := now + uc.client.token_ttl },
              { sender := rb,
                token := { tok with expiry := now + uc.client.token_ttl },
                new_expiry := now + uc.client.token_ttl },
              now + uc.client.token_ttl)) ∧
    (∀ (db : DB) (now : Int) (ts : String) (pk : Nat) (d : Option Int) (db' : DB),
      db.issue now ts pk d = Except.ok db' → ∀ r ∈ db.tokens, r ∈ db'.tokens) ∧
    (∀ (db : DB) (ts : String) (r : TokenRow), r ∈ (db.revoke ts).tokens → r ∈ db.tokens) ∧
    (∀ (db : DB) (pk : Nat) (r : TokenRow),
      r ∈ (db.deleteUserClient pk).tokens → r ∈ db.tokens) ∧
    (∀ (db : DB) (now : Int) (ts rb : String) (db' : DB) (ev : TokenRenewedEvent) (ne : Int),
      db.renew now ts rb = Except.ok (db', ev, ne) →
      ∀ r' ∈ db'.tokens, ∃ r ∈ db.tokens,
        r'.token = r.token ∧ r'.created = r.created ∧ r'.userclient = r.userclient) := by
  refine ⟨?_, ?_, ?_, ?_, ?_⟩
  · intro now tok uc rb h
    simp [AuthToken.renew_token, h]
  · intro db now ts pk d db' h r hr
    obtain ⟨uc, -, -, -, -, htoks⟩ := issue_ok_destruct db now ts pk d db' h
    rw [htoks]
    exact List.mem_append_left _ hr
  · intro db ts r hr
    exact List.mem_of_mem_filter hr
  · intro db pk r hr
    exact List.mem_of_mem_filter hr
  · intro db now ts rb db' ev ne h r' hr'
    obtain ⟨row, pk, uc, -, -, -, -, -, -, htoks⟩ := renew_ok_destruct db now ts rb db' ev ne h
    rw [htoks] at hr'
    obtain ⟨r, hr, rfl⟩ := List.mem_map.1 hr'
    obtain ⟨ht, hc, hu⟩ := renewRow_fields ts (now + uc.client.token_ttl) r
    exact ⟨r, hr, ht, hc, hu⟩

/-- C3 witness: renewing a concrete token updates only its expiry, returns
the new expiry and carries it in the single emitted event. -/
theorem renew_token_spec_witness :
    AuthToken.renew_token 5 ⟨"t", 0, 7, some ⟨1, 2, ⟨1, "c", 10, none⟩⟩⟩ "admin" =
      some (⟨"t", 0, 15, some ⟨1, 2, ⟨1, "c", 10, none⟩⟩⟩,
            ⟨"admin", ⟨"t", 0, 15, some ⟨1, 2, ⟨1, "c", 10, none⟩⟩⟩, 15⟩, 15) :=
  renew_token_spec.1 5 ⟨"t", 0, 7, some ⟨1, 2, ⟨1, "c", 10, none⟩⟩⟩
    ⟨1, 2, ⟨1, "c", 10, none⟩⟩ "admin" rfl

/-- C5 counterexample: `renew_token` does not strictly increase the expiry
in general.  A token holding a far-future expiry (issued with a large
`delta_ttl` override) renewed against a client TTL of 10 at time 5 gets the
new expiry 15, strictly below its previous expiry 1000. -/
theorem renew_token_can_decrease_expiry :
    AuthToken.renew_token 5 ⟨"t", 0, 1000, some ⟨1, 2, ⟨1, "c", 10, none⟩⟩⟩ "admin" =
      some (⟨"t", 0, 15, some ⟨1, 2, ⟨1, "c", 10, none⟩⟩⟩,
            ⟨"admin", ⟨"t", 0, 15, some ⟨1, 2, ⟨1, "c", 10, none⟩⟩⟩, 15⟩, 15) ∧
    ¬ ((1000 : Int) < 15) := by
  exact ⟨rfl, by omega⟩

/-- C5 (amended): a renewal sets the expiry to `now + token_ttl`, so it
strictly increases the expiry exactly when that value exceeds the current
expiry (which the original claim assumed unconditionally); each call yields
exactly one event, and two successive renewals at strictly increasing clock
times yield two events whose new expiries strictly increase. -/
theorem renew_token_monotonicity (now t1 t2 : Int) (tok : AuthToken)
    (uc : UserClient) (rb1 rb2 : String) :
    (∀ (tok' : AuthToken) (ev : TokenRenewedEvent) (ne : Int),
      tok.userclient = some uc →
      AuthToken.renew_token now tok rb1 = some (tok', ev, ne) →
      (tok.expiry < tok'.expiry ↔ tok.expiry < now + uc.client.token_ttl)) ∧
    (∀ (tok1 tok2 : AuthToken) (ev1 ev2 : TokenRenewedEvent) (e1 e2 : Int),
      tok.userclient = some uc →
      AuthToken.renew_token t1 tok rb1 = some (tok1, ev1, e1) →
      AuthToken.renew_token t2 tok1 rb2 = some (tok2, ev2, e2) →
      t1 < t2 →
      e1 < e2 ∧ ev1.new_expiry < ev2.new_expiry ∧
        ev1.new_expiry = e1 ∧ ev2.new_expiry = e2) := by
  constructor
  · intro tok' ev ne hu h
    rw [renew_token_spec.1 now tok uc rb1 hu] at h
    injection h with h
    have h1 : tok' = { tok with expiry := now + uc.client.token_ttl } :=
      congrArg Prod.fst h.symm
    rw [h1]
  · intro tok1 tok2 ev1 ev2 e1 e2 hu h1 h2 hlt
    rw [renew_token_spec.1 t1 tok uc rb1 hu] at h1
    injection h1 with h1
    have htok1 : tok1 = { tok with expiry := t1 + uc.client.token_ttl } :=
      congrArg Prod.fst h1.symm
    have hev1 : ev1 = ⟨rb1, { tok with expiry := t1 + uc.client.token_ttl },
        t1 + uc.client.token_ttl⟩ :=
      congrArg (fun x => x.2.1) h1.symm
    have he1 : e1 = t1 + uc.client.token_ttl := congrArg (fun x => x.2.2) h1.symm
    have hu1 : tok1.userclient = some uc := by rw [htok1]; exact hu
    rw [renew_token_spec.1 t2 tok1 uc rb2 hu1] at h2
    injection h2 with h2
    have hev2 : ev2 = ⟨rb2, { tok1 with expiry := t2 + uc.client.token_ttl },
        t2 + uc.client.token_ttl⟩ :=
      congrArg (fun x => x.2.1) h2.symm
    have he2 : e2 = t2 + uc.client.token_ttl := congrArg (fun x => x.2.2) h2.symm
    refine ⟨?_, ?_, ?_, ?_⟩
    · omega
    · rw [hev1, hev2]; simpa using hlt
    · rw [hev1, he1]
    · rw [hev2, he2]

/-- C5 (amended) witness: two renewals at times 0 and 1 of a token whose
client TTL is 10 produce the strictly increasing new expiries 10 and 11. -/
theorem renew_token_monotonicity_witness :
    (10 : Int) < 11 ∧
    (⟨"a", ⟨"t", 0, 10, some ⟨1, 2, ⟨1, "c", 10, none⟩⟩⟩, 10⟩ :
        TokenRenewedEvent).new_expiry <
      (⟨"b", ⟨"t", 0, 11, some ⟨1, 2, ⟨1, "c", 10, none⟩⟩⟩, 11⟩ :
        TokenRenewedEvent).new_expiry ∧
    (⟨"a", ⟨"t", 0, 10, some ⟨1, 2, ⟨1, "c", 10, none⟩⟩⟩, 10⟩ :
        TokenRenewedEvent).new_expiry = 10 ∧
    (⟨"b", ⟨"t", 0, 11, some ⟨1, 2, ⟨1, "c", 10, none⟩⟩⟩, 11⟩ :
        TokenRenewedEvent).new_expiry = 11 :=
  (renew_token_monotonicity 0 0 1 ⟨"t", 0, 5, some ⟨1, 2, ⟨1, "c", 10, none⟩⟩⟩
      ⟨1, 2, ⟨1, "c", 10, none⟩⟩ "a" "b").2
    ⟨"t", 0, 10, some ⟨1, 2, ⟨1, "c", 10, none⟩⟩⟩
    ⟨"t", 0, 11, some ⟨1, 2, ⟨1, "c", 10, none⟩⟩⟩
    ⟨"a", ⟨"t", 0, 10, some ⟨1, 2, ⟨1, "c", 10, none⟩⟩⟩, 10⟩
    ⟨"b", ⟨"t", 0, 11, some ⟨1, 2, ⟨1, "c", 10, none⟩⟩⟩, 11⟩
    10 11 rfl rfl rfl (by omega)

/-- C4: validation never raises on `None`, and on a non-`None` rate string
it succeeds exactly when the string splits into exactly two parts around
`/`, the first part is a parseable integer, and the second part is one of
the recognized period keys; since the function either returns normally or
raises `DjValidationError`, it raises exactly when one of those three
conditions fails. -/
theorem validate_throttle_rate_ok_iff (r : String) :
    validate_client_throttle_rate none = Except.ok () ∧
    (validate_client_throttle_rate (some r) = Except.ok () ↔
      ∃ num period, splitOnChar '/' r.toList = [num, period] ∧
        (pyInt num).isSome = true ∧ (TIME_PERIODS_MAP period).isSome = true) := by
  refine ⟨rfl, ?_⟩
  simp only [validate_client_throttle_rate]
  cases hs : splitOnChar '/' r.toList with
  | nil => simp [hs]
  | cons a ts =>
    cases ts with
    | nil => simp [hs]
    | cons b ts2 =>
      cases ts2 with
      | nil =>
        cases hp : pyInt a with
        | none => simp [hs, hp]
        | some v =>
          cases ht : TIME_PERIODS_MAP b with
          | none => simp [hs, ht, hp]
          | some w =>
            constructor
            · intro h2
              exact ⟨a, b, rfl, by simp [hp], by simp [ht]⟩
            · intro h2
              simp [hs, hp, ht]
      | cons c ts3 => simp [hs]

example : validate_client_throttle_rate (some "100/h") = Except.ok () := rfl

example : validate_client_throttle_rate (some "10/min") = Except.error "invalid period min" := rfl

example : validate_client_throttle_rate (some "abc/h") = Except.error "invalid literal for int" := rfl

/-- A value below 10 maps under `Nat.digitChar` to an ASCII digit. -/
theorem isAsciiDigit_digitChar : ∀ n < 10, isAsciiDigit (Nat.digitChar n) = true := by
  decide

/-- The core loop `Nat.toDigitsCore` in base 10 only prepends ASCII digits. -/
theorem toDigitsCore_all_digits :
    ∀ (fuel n : Nat) (ds : List Char), ds.all isAsciiDigit = true →
      (Nat.toDigitsCore 10 fuel n ds).all isAsciiDigit = true := by
  intro fuel
  induction fuel with
  | zero => intro n ds h; simpa [Nat.toDigitsCore] using h
  | succ fuel ih =>
    intro n ds h
    simp only [Nat.toDigitsCore]
    split
    · simp [List.all_cons, h, isAsciiDigit_digitChar (n % 10) (by omega)]
    · exact ih (n / 10) _ (by simp [List.all_cons, h, isAsciiDigit_digitChar (n % 10) (by omega)])

/-- The core loop `Nat.toDigitsCore` never returns an empty list when seeded nonempty. -/
theorem toDigitsCore_ne_nil :
    ∀ (fuel n : Nat) (ds : List Char), ds ≠ [] → Nat.toDigitsCore 10 fuel n ds ≠ [] := by
  intro fuel
  induction fuel with
  | zero => intro n ds h; simpa [Nat.toDigitsCore] using h
  | succ fuel ih =>
    intro n ds h
    simp only [Nat.toDigitsCore]
    split
    · simp
    · exact ih (n / 10) _ (by simp)

/-- The decimal representation of a natural number is a nonempty string of
ASCII digits. -/
theorem repr_toList_digits (n : Nat) :
    (Nat.repr n).toList.all isAsciiDigit = true ∧ (Nat.repr n).toList ≠ [] := by
  have h1 : (Nat.repr n).toList = Nat.toDigits 10 n := List.toList_asString _
  rw [h1]
  constructor
  · exact toDigitsCore_all_digits (n + 1) n [] rfl
  · show Nat.toDigitsCore 10 (n + 1) n [] ≠ []
    simp only [Nat.toDigitsCore]
    split
    · simp
    · exact toDigitsCore_ne_nil n (n / 10) _ (by simp)

/-- An ASCII digit is not a whitespace character. -/
theorem isAsciiDigit_not_whitespace (c : Char) (h : isAsciiDigit c = true) :
    c.isWhitespace = false := by
  by_contra hw
  have hw' : c.isWhitespace = true := by
    cases hws : c.isWhitespace
    · exact absurd hws hw
    · rfl
  simp only [Char.isWhitespace, Bool.or_eq_true, decide_eq_true_eq] at hw'
  rcases hw' with ((rfl | rfl) | rfl) | rfl <;> simp [isAsciiDigit] at h

/-- An ASCII digit is not the `/` separator. -/
theorem isAsciiDigit_ne_slash (c : Char) (h : isAsciiDigit c = true) : c ≠ '/' := by
  intro he
  subst he
  simp [isAsciiDigit] at h

/-- Dropping leading whitespace from a whitespace-free list is the
identity. -/
theorem dropWhile_whitespace_id (l : List Char)
    (h : ∀ c ∈ l, c.isWhitespace = false) :
    l.dropWhile Char.isWhitespace = l := by
  cases l with
  | nil => rfl
  | cons a t =>
    rw [List.dropWhile_cons]
    simp [h a (by simp)]

/-- Stripping a whitespace-free list with `pyStrip` is the identity. -/
theorem pyStrip_id (l : List Char) (h : ∀ c ∈ l, c.isWhitespace = false) :
    pyStrip l = l := by
  unfold pyStrip
  rw [dropWhile_whitespace_id l h]
  rw [dropWhile_whitespace_id l.reverse (fun c hc => h c (List.mem_reverse.1 hc))]
  exact List.reverse_reverse l

/-- A nonempty all-digit list parses as digits. -/
theorem parseDigits_isSome (l : List Char) (hne : l ≠ [])
    (hall : l.all isAsciiDigit = true) : (parseDigits l).isSome = true := by
  have : l.isEmpty = false := by
    cases l with
    | nil => exact absurd rfl hne
    | cons a t => rfl
  simp [parseDigits, this, hall]

/-- Splitting a list of the form `a ++ sep :: rest` where `a` is free of the
separator peels off `a` as the first piece. -/
theorem splitOnChar_append (sep : Char) (a rest : List Char)
    (h : ∀ c ∈ a, c ≠ sep) :
    splitOnChar sep (a ++ sep :: rest) = a :: splitOnChar sep rest := by
  induction a with
  | nil => simp [splitOnChar]
  | cons c t ih =>
    have hc : c ≠ sep := h c (by simp)
    rw [List.cons_append]
    simp only [splitOnChar, if_neg hc]
    rw [ih (fun x hx => h x (by simp [hx]))]

/-- Splitting a separator-free list yields that single piece. -/
theorem splitOnChar_no_sep (sep : Char) (p : List Char) (h : ∀ c ∈ p, c ≠ sep) :
    splitOnChar sep p = [p] := by
  induction p with
  | nil => rfl
  | cons c t ih =>
    have hc : c ≠ sep := h c (by simp)
    simp only [splitOnChar, if_neg hc]
    rw [ih (fun x hx => h x (by simp [hx]))]

/-- String `toList` distributes over append. -/
theorem strToList_append (a b : String) : (a ++ b).toList = a.toList ++ b.toList :=
  String.data_append a b

/-- C10: `validate_client_throttle_rate` accepts rate strings with a zero or
negative request count: for every integer `n ≤ 0` and every period in
`{s, m, h, d}`, the string `"<n>/<p>"` validates without error, although it
denotes no positive request budget (`int(num)` accepts a sign and the code
never checks the parsed value). -/
theorem validate_accepts_nonpositive (n : Int) (p : String)
    (hn : n ≤ 0) (hp : p ∈ (["s", "m", "h", "d"] : List String)) :
    validate_client_throttle_rate (some (toString n ++ "/" ++ p)) = Except.ok () := by
  have hnum : ∃ num : List Char, (toString n).toList = num ∧
      (∀ c ∈ num, c ≠ '/') ∧ (pyInt num).isSome = true := by
    rcases n with m | m
    · have hm : m = 0 := by
        have hm' : (m : Int) ≤ 0 := hn
        omega
      subst hm
      exact ⟨['0'], rfl, by decide, by decide⟩
    · obtain ⟨hall, hne⟩ := repr_toList_digits (m + 1)
      have hdig : ∀ c ∈ (Nat.repr (m + 1)).toList, isAsciiDigit c = true :=
        fun c hc => List.all_eq_true.1 hall c hc
      refine ⟨'-' :: (Nat.repr (m + 1)).toList, ?_, ?_, ?_⟩
      · rw [show toString (Int.negSucc m) = "-" ++ Nat.repr (m + 1) from rfl,
          strToList_append]
        rfl
      · intro c hc
        rcases List.mem_cons.1 hc with rfl | hc2
        · decide
        · exact isAsciiDigit_ne_slash c (hdig c hc2)
      · have hws : ∀ c ∈ '-' :: (Nat.repr (m + 1)).toList, c.isWhitespace = false := by
          intro c hc
          rcases List.mem_cons.1 hc with rfl | hc2
          · decide
          · exact isAsciiDigit_not_whitespace c (hdig c hc2)
        simp only [pyInt, pyStrip_id _ hws]
        obtain ⟨v2, hv2⟩ := Option.isSome_iff_exists.1 (parseDigits_isSome _ hne hall)
        have hv2' : parseDigits (Nat.repr (m + 1)).data = some v2 := hv2
        simp [hv2, hv2']
  obtain ⟨num, hnl, hnslash, hpyint⟩ := hnum
  have hpfacts : (∀ c ∈ p.toList, c ≠ '/') ∧ (TIME_PERIODS_MAP p.toList).isSome = true := by
    simp only [List.mem_cons, List.not_mem_nil, or_false] at hp
    rcases hp with rfl | rfl | rfl | rfl <;> exact ⟨by decide, by decide⟩
  have hlist : (toString n ++ "/" ++ p).toList = num ++ '/' :: p.toList := by
    rw [strToList_append, strToList_append, hnl]
    simp
  have hsplit : splitOnChar '/' ((toString n ++ "/" ++ p).toList) = [num, p.toList] := by
    rw [hlist, splitOnChar_append '/' num p.toList hnslash,
      splitOnChar_no_sep '/' p.toList hpfacts.1]
  simp only [validate_client_throttle_rate]
  rw [hsplit]
  obtain ⟨v, hv⟩ := Option.isSome_iff_exists.1 hpyint
  obtain ⟨w, hw⟩ := Option.isSome_iff_exists.1 hpfacts.2
  have hw' : TIME_PERIODS_MAP p.data = some w := hw
  simp [hv, hw, hw']

/-- C10 witness: the rate string "-5/h" passes validation. -/
theorem validate_accepts_nonpositive_witness :
    validate_client_throttle_rate (some (toString (-5 : Int) ++ "/" ++ "h")) = Except.ok () :=
  validate_accepts_nonpositive (-5) "h" (by omega) (by simp)

/-- C6 counterexample: an `AuthToken` row owned by no Principal-Client Link
is schema-valid, because `AuthToken.userclient` is declared `null=True`
(models.py line 186).  So "every AuthToken is owned by exactly one link"
overstates the schema: ownership is at most one, not exactly one. -/
theorem token_row_without_link :
    DB.WF ⟨[], [⟨"t", 0, 0, none⟩]⟩ ∧
    (⟨"t", 0, 0, none⟩ : TokenRow) ∈ (⟨[], [⟨"t", 0, 0, none⟩]⟩ : DB).tokens ∧
    (⟨"t", 0, 0, none⟩ : TokenRow).userclient = none := by
  refine ⟨?_, by simp, rfl⟩
  refine ⟨by simp, by simp, ?_⟩
  intro r hr
  left
  simp only [List.mem_singleton] at hr
  rw [hr]

/-- C6 (amended): every `AuthToken` row references at most one
Principal-Client Link (the one-to-one field is nullable, so ownerless rows
are representable, but never more than one owner); every link owns at most
one token and token strings stay unique (`DB.WF` is preserved by `issue`,
`renew`, `revoke` and link deletion); deleting a link cascades to its
token; and every row created by `issue` is owned by the link it was issued
for. -/
theorem db_invariants :
    (∀ (db : DB) (now : Int) (ts : String) (pk : Nat) (d : Option Int) (db' : DB),
      DB.WF db → db.issue now ts pk d = Except.ok db' → DB.WF db') ∧
    (∀ (db : DB) (now : Int) (ts rb : String) (db' : DB) (ev : TokenRenewedEvent) (ne : Int),
      DB.WF db → db.renew now ts rb = Except.ok (db', ev, ne) → DB.WF db') ∧
    (∀ (db : DB) (ts : String), DB.WF db → DB.WF (db.revoke ts)) ∧
    (∀ (db : DB) (pk : Nat), DB.WF db → DB.WF (db.deleteUserClient pk)) ∧
    (∀ (db : DB) (pk : Nat) (r : TokenRow),
      r ∈ (db.deleteUserClient pk).tokens → r.userclient ≠ some pk) ∧
    (∀ (db : DB) (now : Int) (ts : String) (pk : Nat) (d : Option Int) (db' : DB)
      (r : TokenRow), db.issue now ts pk d = Except.ok db' →
      r ∈ db'.tokens → r ∉ db.tokens → r.userclient = some pk) := by
  refine ⟨?_, ?_, ?_, ?_, ?_, ?_⟩
  · -- issue preserves WF
    intro db now ts pk d db' hWF h
    obtain ⟨uc, hf, hconf, hfresh, hucs, htoks⟩ := issue_ok_destruct db now ts pk d db' h
    obtain ⟨hW1, hW2, hW3⟩ := hWF
    have hucpk : uc.pk = pk := by
      have := List.find?_some hf
      simpa using this
    have hucmem : uc ∈ db.userclients := List.mem_of_find?_eq_some hf
    refine ⟨?_, ?_, ?_⟩
    · rw [htoks, List.pairwise_append]
      refine ⟨hW1, by simp, ?_⟩
      intro a ha b hb
      simp only [List.mem_singleton] at hb
      rw [hb]
      exact hfresh a ha
    · rw [htoks, List.pairwise_append]
      refine ⟨hW2, by simp, ?_⟩
      intro a ha b hb
      simp only [List.mem_singleton] at hb
      rw [hb]
      right
      exact hconf a ha
    · intro r hr
      rw [htoks] at hr
      rcases List.mem_append.1 hr with hr | hr
      · rcases hW3 r hr with hnone | ⟨uc2, huc2, he2⟩
        · exact Or.inl hnone
        · exact Or.inr ⟨uc2, by rw [hucs]; exact huc2, he2⟩
      · simp only [List.mem_singleton] at hr
        rw [hr]
        right
        exact ⟨uc, by rw [hucs]; exact hucmem, by rw [hucpk]⟩
  · -- renew preserves WF
    intro db now ts rb db' ev ne hWF h
    obtain ⟨row, pk, uc, -, -, -, -, -, hucs, htoks⟩ :=
      renew_ok_destruct db now ts rb db' ev ne h
    obtain ⟨hW1, hW2, hW3⟩ := hWF
    refine ⟨?_, ?_, ?_⟩
    · rw [htoks, List.pairwise_map]
      refine hW1.imp ?_
      intro a b hab
      rw [(renewRow_fields ts (now + uc.client.token_ttl) a).1,
        (renewRow_fields ts (now + uc.client.token_ttl) b).1]
      exact hab
    · rw [htoks, List.pairwise_map]
      refine hW2.imp ?_
      intro a b hab
      rw [(renewRow_fields ts (now + uc.client.token_ttl) a).2.2,
        (renewRow_fields ts (now + uc.client.token_ttl) b).2.2]
      exact hab
    · intro r' hr'
      rw [htoks] at hr'
      obtain ⟨r, hr, rfl⟩ := List.mem_map.1 hr'
      rw [(renewRow_fields ts (now + uc.client.token_ttl) r).2.2]
      rcases hW3 r hr with hnone | ⟨uc2, huc2, he2⟩
      · exact Or.inl hnone
      · exact Or.inr ⟨uc2, by rw [hucs]; exact huc2, he2⟩
  · -- revoke preserves WF
    intro db ts hWF
    obtain ⟨hW1, hW2, hW3⟩ := hWF
    refine ⟨hW1.sublist (List.filter_sublist _), hW2.sublist (List.filter_sublist _), ?_⟩
    intro r hr
    exact hW3 r (List.mem_of_mem_filter hr)
  · -- deleteUserClient preserves WF
    intro db pk hWF
    obtain ⟨hW1, hW2, hW3⟩ := hWF
    refine ⟨hW1.sublist (List.filter_sublist _), hW2.sublist (List.filter_sublist _), ?_⟩
    intro r hr
    obtain ⟨hrmem, hrcond⟩ := List.mem_filter.1 hr
    rcases hW3 r hrmem with hnone | ⟨uc2, huc2, he2⟩
    · exact Or.inl hnone
    · refine Or.inr ⟨uc2, ?_, he2⟩
      refine List.mem_filter.2 ⟨huc2, ?_⟩
      simp only [Bool.not_eq_eq_eq_not, Bool.not_true, beq_eq_false_iff_ne] at hrcond ⊢
      intro he
      apply hrcond
      rw [he2, he]
  · -- cascade: no surviving row references the deleted link
    intro db pk r hr
    obtain ⟨-, hrcond⟩ := List.mem_filter.1 hr
    simp only [Bool.not_eq_eq_eq_not, Bool.not_true, beq_eq_false_iff_ne] at hrcond
    exact hrcond
  · -- every row inserted by issue is owned by the issued-for link
    intro db now ts pk d db' r h hr hnot
    obtain ⟨uc, -, -, -, -, htoks⟩ := issue_ok_destruct db now ts pk d db' h
    rw [htoks] at hr
    rcases List.mem_append.1 hr with hr | hr
    · exact absurd hr hnot
    · simp only [List.mem_singleton] at hr
      rw [hr]

/-- C6 (amended) witness: issuing a token for a concrete link keeps the
state well-formed, and after deleting an unrelated link the surviving row
does not reference it. -/
theorem db_invariants_witness :
    DB.WF ⟨[⟨1, 2, ⟨1, "c", 10, none⟩⟩], [⟨"t", 0, 10, some 1⟩]⟩ ∧
    (⟨"t", 0, 10, some 1⟩ : TokenRow).userclient ≠ some 2 :=
  ⟨db_invariants.1 ⟨[⟨1, 2, ⟨1, "c", 10, none⟩⟩], []⟩ 0 "t" 1 none
      ⟨[⟨1, 2, ⟨1, "c", 10, none⟩⟩], [⟨"t", 0, 10, some 1⟩]⟩
      (by refine ⟨by simp, by simp, by simp⟩) rfl,
   db_invariants.2.2.2.2.1 ⟨[⟨1, 2, ⟨1, "c", 10, none⟩⟩], [⟨"t", 0, 10, some 1⟩]⟩ 2
      ⟨"t", 0, 10, some 1⟩ (by simp [DB.deleteUserClient])⟩

end Durin
